import Mathlib

/-!
Shallow embedding of the retrieval-augmented query pipeline of the
Rag-Assignment backend (config.py, services/vector_store.py,
services/rag_service.py, services/gemini_service.py), together with
theorems settling the specification claims about it.

External collaborators (Chroma collection queries, Gemini embedding /
generation / classification calls) are opaque: each is modelled as a
parameter giving its outcome (`Except` for fallible calls), and the
pipeline's own control flow is translated from the source.
Floating-point scores are modelled as rationals.
-/

namespace Rag

/-- A conversation message as stored by `RAGService` (`{"role": ..., "content": ...}`). -/
structure TurnMsg where
  role : String
  content : String
  deriving DecidableEq

/-- One raw hit returned by a Chroma `collection.query` call:
document text, its metadata mapping, and the native distance. -/
structure RawHit where
  document : String
  metadata : List (String × String)
  distance : ℚ
  deriving DecidableEq

/-- A processed search result as built by `VectorStore.search_similar`:
the document content, its original metadata, the originating collection's
source key, and the similarity score `1 - distance` (stored both under the
`similarity_score` metadata key and as the top-level `score`). -/
structure SearchResult where
  content : String
  baseMetadata : List (String × String)
  source : String
  similarity_score : ℚ
  score : ℚ
  deriving DecidableEq

/-- `Settings.DOCUMENT_SOURCES` from config.py, as an ordered key/value list
(Python dicts preserve insertion order). -/
def DOCUMENT_SOURCES : List (String × String) :=
  [("NEC", "NEC Code Guidelines"),
   ("WATTMONK", "Wattmonk Company Information"),
   ("GENERAL", "General Knowledge")]

/-- `Settings.TOP_K_RESULTS` from config.py. -/
def TOP_K_RESULTS : ℕ := 5

/-- Outcome of one collection's `collection.query` call for the query at hand:
either a raised exception (message) or the returned hits. -/
abbrev CollectionOutcome := Except String (List RawHit)

/-- The `self.collections` dict of `VectorStore`, paired with each collection's
backend outcome for the current query, in dict (insertion) order. -/
abbrev Collections := List (String × CollectionOutcome)

/-- The per-collection result processing loop body of
`VectorStore.search_similar`: each `(document, metadata, distance)` triple
becomes a result dict with score `1 - distance`. -/
def process_collection_results (source_key : String) (hits : List RawHit) : List SearchResult :=
  hits.map fun h =>
    { content := h.document
      baseMetadata := h.metadata
      source := source_key
      similarity_score := 1 - h.distance
      score := 1 - h.distance }

/-- The `collections_to_search` selection in `VectorStore.search_similar`:
`if source and source in self.collections:` search only that collection,
otherwise search all of them (`None`, empty, or unknown source). -/
def collections_to_search (collections : Collections) (source : Option String) : Collections :=
  match source with
  | none => collections
  | some s =>
    if s = "" then collections
    else
      match collections.lookup s with
      | some outcome => [(s, outcome)]
      | none => collections

/-- The search loop of `VectorStore.search_similar`: accumulate each
collection's processed results into `all_results`, skipping (continue) any
collection whose query raised. -/
def collect_results (to_search : Collections) : List SearchResult :=
  to_search.foldl
    (fun all_results kb =>
      match kb.2 with
      | Except.ok hits => all_results ++ process_collection_results kb.1 hits
      | Except.error _ => all_results)
    []

/-- Stable insertion (descending by `score`): an element being inserted came
earlier in the original list than everything already inserted, so it goes in
front of equal scores — this models Python's stable
`list.sort(key=..., reverse=True)`. -/
def insert_by_score (x : SearchResult) : List SearchResult → List SearchResult
  | [] => [x]
  | y :: ys => if y.score ≤ x.score then x :: y :: ys else y :: insert_by_score x ys

/-- Stable sort by `score` descending (model of
`all_results.sort(key=lambda x: x["score"], reverse=True)`). -/
def sort_by_score_desc : List SearchResult → List SearchResult
  | [] => []
  | x :: xs => insert_by_score x (sort_by_score_desc xs)

/-- `VectorStore.search_similar`: defaults `top_k` to `TOP_K_RESULTS` when
absent, selects the collections to search, accumulates per-collection results
(per-collection failures skipped), sorts by score descending (stable), and
truncates to `top_k`. -/
def search_similar (collections : Collections) (source : Option String)
    (top_k? : Option ℕ) : List SearchResult :=
  let top_k := top_k?.getD TOP_K_RESULTS
  let all_results := collect_results (collections_to_search collections source)
  (sort_by_score_desc all_results).take top_k

/-- State of the vector store for reset purposes: each source key's collection
contents (document ids). -/
abbrev StoreState := List (String × List String)

/-- `VectorStore.delete_collection`: unknown source raises `ValueError`;
otherwise the named collection is deleted and recreated empty. -/
def delete_collection (collections : StoreState) (source : String) :
    Except String StoreState :=
  if (collections.lookup source).isSome then
    Except.ok (collections.map fun p => if p.1 = source then (p.1, ([] : List String)) else p)
  else
    Except.error ("Unknown source: " ++ source)

/-- Metadata lookup with default (`metadata.get(key, "Unknown")`). -/
def get_meta (metadata : List (String × String)) (key default_value : String) : String :=
  (metadata.lookup key).getD default_value

/-- Half-to-even integer rounding, as Python's `round` uses. -/
def round_half_to_even (q : ℚ) : ℤ :=
  let f : ℤ := ⌊q⌋
  if q - f < 1/2 then f
  else if (1 : ℚ)/2 < q - f then f + 1
  else if f % 2 = 0 then f else f + 1

/-- Python's `round(x, 2)` on the rational model. -/
def round2 (q : ℚ) : ℚ := (round_half_to_even (q * 100) : ℚ) / 100

/-- Two-decimal rendering used in the context header (`{score:.2f}`). -/
def format_relevance (q : ℚ) : String :=
  toString (round2 q)

/-- `RAGService._prepare_context`: empty retrieval yields the empty string,
otherwise each result is rendered in rank order as a numbered source block,
blocks joined by blank lines. -/
def prepare_context (relevant_docs : List SearchResult) : String :=
  if relevant_docs = [] then ""
  else
    String.intercalate "\n" <|
      relevant_docs.enum.map fun p =>
        "[Source " ++ toString (p.1 + 1) ++ ": " ++ p.2.source ++ " - " ++
          get_meta p.2.baseMetadata "filename" "Unknown" ++ " (Relevance: " ++
          format_relevance p.2.score ++ ")]\n" ++ p.2.content ++ "\n"

/-- One entry of the `sources` list built by `RAGService._format_sources`. -/
structure SourceSummary where
  source : String
  filename : String
  chunk_id : String
  relevance_score : ℚ
  preview : String
  deriving DecidableEq

/-- `RAGService._format_sources`: one summary per retrieved document, with a
200-character preview (ellipsis if truncated). -/
def format_sources (relevant_docs : List SearchResult) : List SourceSummary :=
  relevant_docs.map fun doc =>
    { source := doc.source
      filename := get_meta doc.baseMetadata "filename" "Unknown"
      chunk_id := get_meta doc.baseMetadata "chunk_id" "Unknown"
      relevance_score := doc.score
      preview :=
        if doc.content.length > 200 then doc.content.take 200 ++ "..." else doc.content }

/-- `RAGService._calculate_confidence_score`: `0.0` with no results, otherwise
`round(top_score * 0.7 + min(count / TOP_K_RESULTS, 1.0) * 0.3, 2)`. -/
def calculate_confidence_score (relevant_docs : List SearchResult) : ℚ :=
  if relevant_docs = [] then 0
  else
    let top_score := ((relevant_docs.head?).map SearchResult.score).getD 0
    let doc_count_factor := min ((relevant_docs.length : ℚ) / (TOP_K_RESULTS : ℚ)) 1
    round2 (top_score * (7/10) + doc_count_factor * (3/10))

/-- The `self.conversation_memory` dict of `RAGService`, session id keyed, in
insertion order. -/
abbrev Memory := List (String × List TurnMsg)

/-- Per-session body of `RAGService._update_conversation_memory`: append the
user turn then the assistant turn; when the length exceeds 10, keep only the
last 10 turns (`conversation[-10:]`). -/
def update_conversation (conversation : List TurnMsg) (query response : String) :
    List TurnMsg :=
  let conversation := conversation ++ [⟨"user", query⟩, ⟨"assistant", response⟩]
  if conversation.length > 10 then conversation.drop (conversation.length - 10)
  else conversation

/-- Store a session's conversation in the memory dict (assignment to
`self.conversation_memory[session_id]`). -/
def set_memory (memory : Memory) (session_id : String) (conversation : List TurnMsg) :
    Memory :=
  if (memory.lookup session_id).isSome then
    memory.map fun p => if p.1 = session_id then (session_id, conversation) else p
  else
    memory ++ [(session_id, conversation)]

/-- `RAGService._update_conversation_memory`: create the session on first
reference (empty list), append the two turns, keep the last 10. -/
def update_conversation_memory (memory : Memory) (session_id query response : String) :
    Memory :=
  set_memory memory session_id
    (update_conversation ((memory.lookup session_id).getD []) query response)

/-- `RAGService._get_conversation_history`: `None` for a falsy or unknown
session id, the stored history otherwise. -/
def get_conversation_history (memory : Memory) (session_id : String) :
    Option (List TurnMsg) :=
  if session_id = "" then none else memory.lookup session_id

/-- The history window `GeminiService._build_prompt` surfaces to the
generation prompt: the last 5 turns of the provided history, in order
(`conversation_history[-5:]`), nothing when no history was given. -/
def surfaced_history (conversation_history : Option (List TurnMsg)) : List TurnMsg :=
  match conversation_history with
  | none => []
  | some h => h.drop (h.length - 5)

/-- Opaque Gemini collaborator (`GeminiService`): intent classification is
total (it catches its own errors and returns "GENERAL"); embedding and
generation may fail. `fresh_session_id` stands for `uuid.uuid4()`. -/
structure GeminiOps where
  classify_intent : String → String
  generate_query_embedding : String → Except String (List ℚ)
  generate_response : String → String → Option (List TurnMsg) → Except String String
  fresh_session_id : String

/-- Session id resolution in `RAGService.query`: `if not session_id:` generate
a fresh one. -/
def resolve_session_id (ops : GeminiOps) (session_id? : Option String) : String :=
  match session_id? with
  | none => ops.fresh_session_id
  | some s => if s = "" then ops.fresh_session_id else s

/-- The classification branch of `RAGService.query`:
`source_filter = intent if intent in settings.DOCUMENT_SOURCES else None`. -/
def classified_filter (ops : GeminiOps) (query : String) : Option String :=
  let intent := ops.classify_intent query
  if (DOCUMENT_SOURCES.lookup intent).isSome then some intent else none

/-- Source filter resolution in `RAGService.query`: classify only when the
caller supplied no (or a falsy) filter. -/
def resolve_source_filter (ops : GeminiOps) (query : String)
    (source_filter? : Option String) : Option String :=
  match source_filter? with
  | none => classified_filter ops query
  | some s => if s = "" then classified_filter ops query else some s

/-- `top_k or settings.TOP_K_RESULTS` in `RAGService.query` (Python `or`:
`None` and `0` both fall back). -/
def resolve_top_k (top_k? : Option ℕ) : ℕ :=
  match top_k? with
  | none => TOP_K_RESULTS
  | some k => if k = 0 then TOP_K_RESULTS else k

/-- The result dict returned by `RAGService.query`. -/
structure QueryResult where
  answer : String
  sources : List SourceSummary
  context_used : ℕ
  intent_classification : String
  confidence_score : ℚ
  session_id : String
  deriving DecidableEq

/-- `RAGService.query`: the full pipeline. The returned pair carries the
outcome and the conversation memory as it stands afterwards — on a raised
error the instance state is whatever it was when the exception propagated. -/
def rag_query (ops : GeminiOps) (collections : Collections) (memory : Memory)
    (query : String) (session_id? source_filter? : Option String) (top_k? : Option ℕ) :
    Except String QueryResult × Memory :=
  let session_id := resolve_session_id ops session_id?
  let source_filter := resolve_source_filter ops query source_filter?
  match ops.generate_query_embedding query with
  | Except.error e => (Except.error e, memory)
  | Except.ok _embedding =>
    let relevant_docs := search_similar collections source_filter (some (resolve_top_k top_k?))
    let context := prepare_context relevant_docs
    let conversation_history := get_conversation_history memory session_id
    match ops.generate_response query context conversation_history with
    | Except.error e => (Except.error e, memory)
    | Except.ok response =>
      let memory' :=
        if session_id = "" then memory
        else update_conversation_memory memory session_id query response
      (Except.ok
        { answer := response
          sources := format_sources relevant_docs
          context_used := relevant_docs.length
          intent_classification :=
            match source_filter with
            | none => "GENERAL"
            | some s => if s = "" then "GENERAL" else s
          confidence_score := calculate_confidence_score relevant_docs
          session_id := session_id },
       memory')

/-! ### Lemmas about the stable descending sort of `search_similar` -/

theorem mem_insert_by_score {x a : SearchResult} {l : List SearchResult} :
    a ∈ insert_by_score x l ↔ a = x ∨ a ∈ l := by
  induction l with
  | nil => simp [insert_by_score]
  | cons y ys ih =>
    by_cases h : y.score ≤ x.score
    · simp [insert_by_score, h]
    · simp [insert_by_score, h, ih]
      tauto

theorem mem_sort_by_score_desc {a : SearchResult} {l : List SearchResult} :
    a ∈ sort_by_score_desc l ↔ a ∈ l := by
  induction l with
  | nil => simp [sort_by_score_desc]
  | cons x xs ih => simp [sort_by_score_desc, mem_insert_by_score, ih]

theorem pairwise_insert_by_score {x : SearchResult} {l : List SearchResult}
    (h : l.Pairwise (fun a b => b.score ≤ a.score)) :
    (insert_by_score x l).Pairwise (fun a b => b.score ≤ a.score) := by
  induction l with
  | nil => simp [insert_by_score]
  | cons y ys ih =>
    rw [List.pairwise_cons] at h
    by_cases hc : y.score ≤ x.score
    · rw [insert_by_score, if_pos hc, List.pairwise_cons]
      refine ⟨?_, List.pairwise_cons.mpr h⟩
      intro b hb
      rcases List.mem_cons.mp hb with rfl | hb
      · exact hc
      · exact le_trans (h.1 b hb) hc
    · rw [insert_by_score, if_neg hc, List.pairwise_cons]
      refine ⟨?_, ih h.2⟩
      intro b hb
      rcases mem_insert_by_score.mp hb with rfl | hb
      · exact le_of_lt (lt_of_not_le hc)
      · exact h.1 b hb

theorem pairwise_sort_by_score_desc (l : List SearchResult) :
    (sort_by_score_desc l).Pairwise (fun a b => b.score ≤ a.score) := by
  induction l with
  | nil => simp [sort_by_score_desc]
  | cons x xs ih => exact pairwise_insert_by_score ih

theorem filter_insert_by_score_of_neg {p : SearchResult → Bool} {x : SearchResult}
    {l : List SearchResult} (hx : p x = false) :
    (insert_by_score x l).filter p = l.filter p := by
  induction l with
  | nil => simp [insert_by_score, hx]
  | cons y ys ih =>
    by_cases hc : y.score ≤ x.score
    · rw [insert_by_score, if_pos hc, List.filter_cons, hx]
      simp
    · rw [insert_by_score, if_neg hc, List.filter_cons, List.filter_cons, ih]

theorem filter_insert_by_score_of_pos {p : SearchResult → Bool} {x : SearchResult}
    {l : List SearchResult} (hx : p x = true)
    (hgt : ∀ y, p y = true → y.score ≤ x.score) :
    (insert_by_score x l).filter p = x :: l.filter p := by
  induction l with
  | nil => simp [insert_by_score, hx]
  | cons y ys ih =>
    by_cases hc : y.score ≤ x.score
    · rw [insert_by_score, if_pos hc, List.filter_cons, hx]
      simp
    · have hy : p y = false := by
        cases hpy : p y with
        | false => rfl
        | true => exact absurd (hgt y hpy) hc
      rw [insert_by_score, if_neg hc, List.filter_cons, hy, List.filter_cons, hy, ih]
      simp

/-- Stability of the sort: results of any fixed score keep their original
relative order (first-seen wins). -/
theorem sort_by_score_desc_stable (l : List SearchResult) (s : ℚ) :
    (sort_by_score_desc l).filter (fun r => decide (r.score = s)) =
      l.filter (fun r => decide (r.score = s)) := by
  induction l with
  | nil => simp [sort_by_score_desc]
  | cons x xs ih =>
    rw [sort_by_score_desc]
    by_cases hx : x.score = s
    · rw [filter_insert_by_score_of_pos (by simp [hx])
        (fun y hy => by simp at hy; rw [hy, hx]), ih, List.filter_cons]
      simp [hx]
    · rw [filter_insert_by_score_of_neg (by simp [hx]), ih, List.filter_cons]
      simp [hx]

/-! ### Lemmas about the result-accumulation loop -/

/-- The block of results one collection contributes to `all_results`. -/
def collection_block (kb : String × CollectionOutcome) : List SearchResult :=
  match kb.2 with
  | Except.ok hits => process_collection_results kb.1 hits
  | Except.error _ => []

theorem collect_results_aux (l : Collections) (acc : List SearchResult) :
    l.foldl
      (fun all_results kb =>
        match kb.2 with
        | Except.ok hits => all_results ++ process_collection_results kb.1 hits
        | Except.error _ => all_results)
      acc = acc ++ (l.map collection_block).flatten := by
  induction l generalizing acc with
  | nil => simp
  | cons kb l ih =>
    rw [List.foldl_cons, ih, List.map_cons, List.flatten_cons, ← List.append_assoc]
    rcases kb with ⟨k, outcome⟩
    cases outcome with
    | ok hits => rfl
    | error e => simp [collection_block]

theorem collect_results_eq (l : Collections) :
    collect_results l = (l.map collection_block).flatten :=
  by simpa using collect_results_aux l []

/-- Per-collection failures are skipped: the accumulated results are exactly
those of the non-failing collections. -/
theorem collect_results_filter_ok (l : Collections) :
    collect_results l = collect_results (l.filter fun kb => kb.2.isOk) := by
  rw [collect_results_eq, collect_results_eq]
  induction l with
  | nil => rfl
  | cons kb l ih =>
    rcases kb with ⟨k, outcome⟩
    cases outcome with
    | ok hits =>
      simp only [List.map_cons, List.flatten_cons, List.filter_cons, Except.isOk,
        Except.toBool, if_true, ih]
    | error e =>
      simp only [List.map_cons, List.flatten_cons, List.filter_cons, Except.isOk,
        Except.toBool, if_false, ih]
      simp [collection_block]

theorem collect_results_all_fail {l : Collections}
    (h : ∀ kb ∈ l, kb.2.isOk = false) : collect_results l = [] := by
  rw [collect_results_filter_ok]
  have : l.filter (fun kb => kb.2.isOk) = [] := by
    rw [List.filter_eq_nil_iff]
    intro kb hkb
    simp [h kb hkb]
  rw [this]
  rfl

/-! ### Lemmas about association-list lookup after point updates -/

theorem lookup_cons_self {β : Type} (k : String) (v : β) (l : List (String × β)) :
    List.lookup k ((k, v) :: l) = some v := by
  simp [List.lookup]

theorem lookup_cons_ne {β : Type} {k k' : String} (v : β) (l : List (String × β))
    (h : k ≠ k') : List.lookup k ((k', v) :: l) = List.lookup k l := by
  have hb : (k == k') = false := beq_eq_false_iff_ne.mpr h
  simp [List.lookup, hb]

theorem lookup_map_replace {β : Type} (l : List (String × β)) (k : String) (v : β) :
    List.lookup k (l.map fun p => if p.1 = k then (k, v) else p) =
      (List.lookup k l).map fun _ => v := by
  induction l with
  | nil => rfl
  | cons p l ih =>
    rcases p with ⟨k₀, w⟩
    by_cases hk : k₀ = k
    · subst hk
      rw [List.map_cons, if_pos (rfl : (k₀, w).1 = k₀)]
      rw [lookup_cons_self, lookup_cons_self]
      rfl
    · rw [List.map_cons, if_neg (hk : ¬(k₀, w).1 = k)]
      rw [lookup_cons_ne _ _ (Ne.symm hk), lookup_cons_ne _ _ (Ne.symm hk), ih]

theorem lookup_map_replace_ne {β : Type} (l : List (String × β)) {k k' : String} (v : β)
    (h : k' ≠ k) :
    List.lookup k' (l.map fun p => if p.1 = k then (k, v) else p) = List.lookup k' l := by
  induction l with
  | nil => rfl
  | cons p l ih =>
    rcases p with ⟨k₀, w⟩
    by_cases hk : k₀ = k
    · subst hk
      rw [List.map_cons, if_pos (rfl : (k₀, w).1 = k₀)]
      rw [lookup_cons_ne _ _ h, lookup_cons_ne _ _ h, ih]
    · rw [List.map_cons, if_neg (hk : ¬(k₀, w).1 = k)]
      by_cases he : k' = k₀
      · subst he
        rw [lookup_cons_self, lookup_cons_self]
      · rw [lookup_cons_ne _ _ he, lookup_cons_ne _ _ he, ih]

theorem lookup_append_of_none {β : Type} {l : List (String × β)} {k : String}
    (h : List.lookup k l = none) (tail : List (String × β)) :
    List.lookup k (l ++ tail) = List.lookup k tail := by
  induction l with
  | nil => rfl
  | cons p l ih =>
    rcases p with ⟨k₀, w⟩
    by_cases he : k = k₀
    · subst he
      rw [lookup_cons_self] at h
      cases h
    · rw [lookup_cons_ne _ _ he] at h
      rw [List.cons_append, lookup_cons_ne _ _ he]
      exact ih h

theorem lookup_append_tail_ne {β : Type} (l : List (String × β)) {k k' : String} (v : β)
    (h : k' ≠ k) : List.lookup k' (l ++ [(k, v)]) = List.lookup k' l := by
  induction l with
  | nil => simpa using lookup_cons_ne v [] h
  | cons p l ih =>
    rcases p with ⟨k₀, w⟩
    by_cases he : k' = k₀
    · subst he
      rw [List.cons_append, lookup_cons_self, lookup_cons_self]
    · rw [List.cons_append, lookup_cons_ne _ _ he, lookup_cons_ne _ _ he, ih]

theorem lookup_set_memory_self (memory : Memory) (session_id : String)
    (conversation : List TurnMsg) :
    List.lookup session_id (set_memory memory session_id conversation) =
      some conversation := by
  unfold set_memory
  by_cases h : (List.lookup session_id memory).isSome
  · rw [if_pos h, lookup_map_replace]
    rcases Option.isSome_iff_exists.mp h with ⟨c, hc⟩
    rw [hc]
    rfl
  · rw [if_neg h]
    have hn : List.lookup session_id memory = none := by
      cases hx : List.lookup session_id memory
      · rfl
      · rw [hx] at h
        simp at h
    rw [lookup_append_of_none hn, lookup_cons_self]

theorem lookup_set_memory_ne (memory : Memory) {session_id other : String}
    (conversation : List TurnMsg) (h : other ≠ session_id) :
    List.lookup other (set_memory memory session_id conversation) =
      List.lookup other memory := by
  unfold set_memory
  by_cases hs : (List.lookup session_id memory).isSome
  · rw [if_pos hs, lookup_map_replace_ne _ _ h]
  · rw [if_neg hs, lookup_append_tail_ne _ _ h]

/-! ### Well-formedness of conversation histories -/

/-- A conversation list is well formed when it consists of strictly
alternating (user, assistant) pairs. -/
def well_formed_conversation : List TurnMsg → Bool
  | [] => true
  | [_] => false
  | u :: a :: rest =>
    u.role == "user" && a.role == "assistant" && well_formed_conversation rest

theorem well_formed_even {c : List TurnMsg} (h : well_formed_conversation c = true) :
    Even c.length := by
  induction c using well_formed_conversation.induct with
  | case1 => simp
  | case2 t =>
    rw [well_formed_conversation] at h
    cases h
  | case3 u a rest ih =>
    rw [well_formed_conversation, Bool.and_eq_true] at h
    rcases ih h.2 with ⟨m, hm⟩
    exact ⟨m + 1, by simp only [List.length_cons]; omega⟩

theorem well_formed_append_pair {c : List TurnMsg} (q r : String)
    (h : well_formed_conversation c = true) :
    well_formed_conversation (c ++ [⟨"user", q⟩, ⟨"assistant", r⟩]) = true := by
  induction c using well_formed_conversation.induct with
  | case1 => simp [well_formed_conversation]
  | case2 t =>
    rw [well_formed_conversation] at h
    cases h
  | case3 u a rest ih =>
    rw [well_formed_conversation, Bool.and_eq_true] at h
    rw [List.cons_append, List.cons_append, well_formed_conversation, Bool.and_eq_true]
    exact ⟨h.1, ih h.2⟩

theorem well_formed_drop_two {c : List TurnMsg} (h : well_formed_conversation c = true)
    (hl : 2 ≤ c.length) : well_formed_conversation (c.drop 2) = true := by
  cases c with
  | nil => simp at hl
  | cons u t =>
    cases t with
    | nil => simp at hl
    | cons a rest =>
      rw [well_formed_conversation, Bool.and_eq_true] at h
      simpa using h.2

theorem well_formed_head_last {c : List TurnMsg}
    (h : well_formed_conversation c = true) (hne : c ≠ []) :
    c.head?.map TurnMsg.role = some "user" ∧
    c.getLast?.map TurnMsg.role = some "assistant" := by
  induction c using well_formed_conversation.induct with
  | case1 => cases hne rfl
  | case2 t =>
    rw [well_formed_conversation] at h
    cases h
  | case3 u a rest ih =>
    rw [well_formed_conversation, Bool.and_eq_true, Bool.and_eq_true] at h
    obtain ⟨⟨hu, ha⟩, hrest⟩ := h
    rw [beq_iff_eq] at hu ha
    refine ⟨by simp [hu], ?_⟩
    cases hr : rest with
    | nil =>
      subst hr
      simp [List.getLast?, ha]
    | cons x xs =>
      subst hr
      have hx := ih hrest (by simp)
      rw [List.getLast?_cons_cons, List.getLast?_cons_cons]
      exact hx.2

theorem well_formed_update_conversation (q r : String) {c : List TurnMsg}
    (hwf : well_formed_conversation c = true) (hlen : c.length ≤ 10) :
    well_formed_conversation (update_conversation c q r) = true ∧
    (update_conversation c q r).length ≤ 10 := by
  have hwf' := well_formed_append_pair q r hwf
  have hap : (c ++ [(⟨"user", q⟩ : TurnMsg), ⟨"assistant", r⟩]).length = c.length + 2 := by
    simp
  unfold update_conversation
  by_cases hc : (c ++ [(⟨"user", q⟩ : TurnMsg), ⟨"assistant", r⟩]).length > 10
  · rw [if_pos hc]
    rcases well_formed_even hwf with ⟨m, hm⟩
    have h10 : c.length = 10 := by omega
    have hd : (c ++ [(⟨"user", q⟩ : TurnMsg), ⟨"assistant", r⟩]).length - 10 = 2 := by
      omega
    rw [hd]
    exact ⟨well_formed_drop_two hwf' (by omega), by simp [hap, h10]⟩
  · rw [if_neg hc]
    exact ⟨hwf', by omega⟩

/-- Invariant carried by the conversation memory map. -/
def memory_invariant (memory : Memory) : Prop :=
  ∀ session_id conversation,
    List.lookup session_id memory = some conversation →
    well_formed_conversation conversation = true ∧ conversation.length ≤ 10

theorem memory_invariant_update {memory : Memory} (h : memory_invariant memory)
    (session_id query response : String) :
    memory_invariant (update_conversation_memory memory session_id query response) := by
  intro sid c hc
  unfold update_conversation_memory at hc
  by_cases he : sid = session_id
  · subst he
    rw [lookup_set_memory_self] at hc
    injection hc with hc
    subst hc
    cases hx : List.lookup sid memory with
    | none => exact well_formed_update_conversation _ _ rfl (by simp)
    | some old =>
      exact well_formed_update_conversation _ _ (h sid old hx).1 (h sid old hx).2
  · rw [lookup_set_memory_ne _ _ he] at hc
    exact h sid c hc

/-- A sequence of `(session_id, query, response)` append events applied to the
initially empty conversation memory. -/
def run_appends (events : List (String × String × String)) : Memory :=
  events.foldl (fun m e => update_conversation_memory m e.1 e.2.1 e.2.2) []

theorem memory_invariant_foldl (events : List (String × String × String))
    (m : Memory) (h : memory_invariant m) :
    memory_invariant
      (events.foldl (fun m e => update_conversation_memory m e.1 e.2.1 e.2.2) m) := by
  induction events generalizing m with
  | nil => exact h
  | cons e es ih => exact ih _ (memory_invariant_update h e.1 e.2.1 e.2.2)

theorem memory_invariant_run_appends (events : List (String × String × String)) :
    memory_invariant (run_appends events) := by
  apply memory_invariant_foldl
  intro sid c hc
  cases hc

/-! ### Lemmas for collection reset -/

theorem reset_map_eq (st : StoreState) (source : String) :
    (st.map fun p => if p.1 = source then (p.1, ([] : List String)) else p) =
      st.map fun p => if p.1 = source then (source, ([] : List String)) else p := by
  induction st with
  | nil => rfl
  | cons p l ih =>
    rw [List.map_cons, List.map_cons, ih]
    by_cases h : p.1 = source
    · rw [if_pos h, if_pos h, h]
    · rw [if_neg h, if_neg h]

theorem reset_map_idem (st : StoreState) (source : String) :
    ((st.map fun p => if p.1 = source then (p.1, ([] : List String)) else p).map
        fun p => if p.1 = source then (p.1, ([] : List String)) else p) =
      st.map fun p => if p.1 = source then (p.1, ([] : List String)) else p := by
  rw [List.map_map]
  induction st with
  | nil => rfl
  | cons p l ih =>
    rw [List.map_cons, List.map_cons, ih]
    by_cases h : p.1 = source
    · simp [Function.comp, if_pos h]
    · simp [Function.comp, if_neg h]

theorem mem_of_lookup {β : Type} {l : List (String × β)} {k : String} {v : β}
    (h : List.lookup k l = some v) : (k, v) ∈ l := by
  induction l with
  | nil => cases h
  | cons p l ih =>
    rcases p with ⟨k₀, w⟩
    by_cases he : k = k₀
    · subst he
      rw [lookup_cons_self] at h
      injection h with h
      subst h
      exact List.mem_cons_self _ _
    · rw [lookup_cons_ne _ _ he] at h
      exact List.mem_cons_of_mem _ (ih h)

theorem collections_to_search_subset (collections : Collections)
    (source : Option String) :
    ∀ kb ∈ collections_to_search collections source, kb ∈ collections := by
  intro kb h
  cases source with
  | none => exact h
  | some s =>
    simp only [collections_to_search] at h
    by_cases hs : s = ""
    · rw [if_pos hs] at h
      exact h
    · rw [if_neg hs] at h
      cases hlk : List.lookup s collections with
      | none =>
        rw [hlk] at h
        exact h
      | some outcome =>
        rw [hlk] at h
        rcases List.mem_singleton.mp h with rfl
        exact mem_of_lookup hlk

/-! ### Claim theorems -/

/-- **C3.** For every search call (in particular every federated search with
the source filter omitted or unknown) the merged result list has length at most
`top_k` (defaulting to the configured `TOP_K_RESULTS`), is sorted by score in
descending order, and for equal scores preserves the original per-collection
accumulation order: the same-score results of the output form a prefix of the
same-score results of the per-collection ordered accumulated list, so
first-seen wins and ties are never reordered. -/
theorem federated_search_merge_spec (collections : Collections)
    (source : Option String) (top_k? : Option ℕ) :
    (search_similar collections source top_k?).length ≤ top_k?.getD TOP_K_RESULTS ∧
    (search_similar collections source top_k?).Pairwise
      (fun a b => b.score ≤ a.score) ∧
    ∀ s : ℚ,
      (search_similar collections source top_k?).filter (fun r => decide (r.score = s))
        <+:
      (collect_results (collections_to_search collections source)).filter
        (fun r => decide (r.score = s)) := by
  refine ⟨List.length_take_le _ _, ?_, ?_⟩
  · exact List.Pairwise.sublist (List.take_sublist _ _) (pairwise_sort_by_score_desc _)
  · intro s
    have h := (List.take_prefix (top_k?.getD TOP_K_RESULTS)
        (sort_by_score_desc
          (collect_results (collections_to_search collections source)))).filter
      (fun r => decide (r.score = s))
    rwa [sort_by_score_desc_stable] at h

/-- **C2 (counterexample to the claim as stated).** When every collection's
search fails, `search_similar` does not fail: it returns the empty list.  (No
`SearchError` exists anywhere in the code.) -/
theorem all_collections_fail_counterexample :
    search_similar
        [("NEC", Except.error "boom"), ("WATTMONK", Except.error "boom"),
         ("GENERAL", Except.error "boom")] none none = [] := rfl

/-- **C2 (amended).** A failure of some collections is non-fatal: the search
result is exactly the result of searching the non-failing collections (failing
collections' results are omitted); and when every collection fails the call
returns the empty result list rather than raising. -/
theorem some_collections_fail_non_fatal (collections : Collections)
    (top_k? : Option ℕ) :
    search_similar collections none top_k? =
      search_similar (collections.filter fun kb => kb.2.isOk) none top_k? ∧
    ((∀ kb ∈ collections, kb.2.isOk = false) →
      search_similar collections none top_k? = []) := by
  constructor
  · unfold search_similar collections_to_search
    rw [collect_results_filter_ok]
  · intro h
    unfold search_similar collections_to_search
    rw [collect_results_all_fail h]
    simp [sort_by_score_desc]

/-- Witness for C2: with one healthy collection out of three, the results are
those of the healthy one; with all three failing, the result is empty. -/
theorem some_collections_fail_non_fatal_witness :
    search_similar
        [("NEC", Except.error "down"), ("WATTMONK", Except.ok [⟨"wd", [], 0⟩]),
         ("GENERAL", Except.error "down")] none none =
      search_similar [("WATTMONK", Except.ok [⟨"wd", [], 0⟩])] none none ∧
    search_similar
        [("NEC", Except.error "a"), ("WATTMONK", Except.error "b"),
         ("GENERAL", Except.error "c")] none none = [] :=
  ⟨(some_collections_fail_non_fatal
      [("NEC", Except.error "down"), ("WATTMONK", Except.ok [⟨"wd", [], 0⟩]),
       ("GENERAL", Except.error "down")] none).1,
   (some_collections_fail_non_fatal
      [("NEC", Except.error "a"), ("WATTMONK", Except.error "b"),
       ("GENERAL", Except.error "c")] none).2 (by decide)⟩

/-- **C4 (counterexample to the claim as stated).** A backend distance of `3/2`
lies in `[0, 2]`, yet the produced score `1 - 3/2` is negative, so it is not in
`[0, 1]`. -/
theorem score_bound_counterexample :
    search_similar [("GENERAL", Except.ok [⟨"doc", [], 3/2⟩])] none none =
      [⟨"doc", [], "GENERAL", 1 - 3/2, 1 - 3/2⟩] ∧
    (1 : ℚ) - 3/2 < 0 := by
  constructor
  · rfl
  · norm_num

/-- **C4 (amended).** For every search result produced from a backend whose
native distances lie in `[0, 2]`, the score `1 - distance` lies in `[-1, 1]`
(it lies in `[0, 1]` only when distances stay in `[0, 1]`). -/
theorem score_bound_amended (collections : Collections) (source : Option String)
    (top_k? : Option ℕ)
    (hd : ∀ kb ∈ collections, ∀ hits, kb.2 = Except.ok hits →
        ∀ h ∈ hits, 0 ≤ h.distance ∧ h.distance ≤ 2)
    (r : SearchResult) (hr : r ∈ search_similar collections source top_k?) :
    -1 ≤ r.score ∧ r.score ≤ 1 := by
  have h1 : r ∈ sort_by_score_desc
      (collect_results (collections_to_search collections source)) :=
    List.mem_of_mem_take hr
  have h2 := mem_sort_by_score_desc.mp h1
  rw [collect_results_eq] at h2
  rcases List.mem_flatten.mp h2 with ⟨block, hblock, hrb⟩
  rcases List.mem_map.mp hblock with ⟨kb, hkb, rfl⟩
  have hkb' : kb ∈ collections := collections_to_search_subset _ _ kb hkb
  rcases kb with ⟨key, outcome⟩
  cases outcome with
  | error e => simp [collection_block] at hrb
  | ok hits =>
    simp only [collection_block, process_collection_results] at hrb
    rcases List.mem_map.mp hrb with ⟨hit, hhit, rfl⟩
    obtain ⟨hd0, hd2⟩ := hd _ hkb' hits rfl hit hhit
    constructor
    · show -1 ≤ 1 - hit.distance
      linarith
    · show 1 - hit.distance ≤ 1
      linarith

/-- Witness for C4: a distance of `1/2` gives a score inside `[-1, 1]`. -/
theorem score_bound_amended_witness :
    -1 ≤ (⟨"doc", [], "GENERAL", 1 - (1/2 : ℚ), 1 - (1/2 : ℚ)⟩ : SearchResult).score ∧
    (⟨"doc", [], "GENERAL", 1 - (1/2 : ℚ), 1 - (1/2 : ℚ)⟩ : SearchResult).score ≤ 1 :=
  score_bound_amended [("GENERAL", Except.ok [⟨"doc", [], 1/2⟩])] none none
    (by
      intro kb hkb hits heq hit hhit
      rcases List.mem_singleton.mp hkb with rfl
      injection heq with heq
      subst heq
      rcases List.mem_singleton.mp hhit with rfl
      constructor
      · show (0 : ℚ) ≤ 1/2
        norm_num
      · show (1/2 : ℚ) ≤ 2
        norm_num)
    _ (List.mem_cons_self _ _)

/-- **C5.** The confidence score is `0` for an empty result list; otherwise it
is `round(0.7 * top_score + 0.3 * min(result_count / TOP_K_RESULTS, 1), 2)`;
in particular top score `9/10` with 3 results and configured `TOP_K_RESULTS = 5`
gives `0.81`. -/
theorem confidence_score_spec :
    calculate_confidence_score [] = 0 ∧
    (∀ d ds, calculate_confidence_score (d :: ds) =
      round2 ((7/10) * d.score +
        (3/10) * min (((d :: ds).length : ℚ) / (TOP_K_RESULTS : ℚ)) 1)) ∧
    calculate_confidence_score
        [⟨"c1", [], "NEC", 9/10, 9/10⟩, ⟨"c2", [], "NEC", 1/2, 1/2⟩,
         ⟨"c3", [], "NEC", 2/5, 2/5⟩] = 81/100 := by
  refine ⟨rfl, ?_, ?_⟩
  · intro d ds
    unfold calculate_confidence_score
    rw [if_neg (by simp)]
    have hh : ((List.head? (d :: ds)).map SearchResult.score).getD 0 = d.score := rfl
    rw [hh]
    ring_nf
  · unfold calculate_confidence_score
    rw [if_neg (by simp)]
    norm_num [round2, round_half_to_even, TOP_K_RESULTS, min_def]

/-- **C9.** For a known source key, reset succeeds and leaves the collection
present and empty, and resetting again succeeds and returns the very same
state: reset is idempotent and never raises on a known key. -/
theorem reset_collection_idempotent (st : StoreState) (source : String)
    (h : (List.lookup source st).isSome) :
    ∃ st₁, delete_collection st source = Except.ok st₁ ∧
      List.lookup source st₁ = some ([] : List String) ∧
      delete_collection st₁ source = Except.ok st₁ := by
  refine ⟨st.map fun p => if p.1 = source then (p.1, ([] : List String)) else p,
    ?_, ?_, ?_⟩
  · unfold delete_collection
    rw [if_pos h]
  · rw [reset_map_eq, lookup_map_replace]
    rcases Option.isSome_iff_exists.mp h with ⟨c, hc⟩
    rw [hc]
    rfl
  · unfold delete_collection
    have h1 : (List.lookup source
        (st.map fun p => if p.1 = source then (p.1, ([] : List String)) else p)).isSome := by
      rw [reset_map_eq, lookup_map_replace]
      rcases Option.isSome_iff_exists.mp h with ⟨c, hc⟩
      rw [hc]
      rfl
    rw [if_pos h1, reset_map_idem]

/-- Witness for C9 at a concrete two-collection store. -/
theorem reset_collection_idempotent_witness :
    ∃ st₁, delete_collection [("NEC", ["d1", "d2"]), ("GENERAL", ["g1"])] "NEC" =
        Except.ok st₁ ∧
      List.lookup "NEC" st₁ = some ([] : List String) ∧
      delete_collection st₁ "NEC" = Except.ok st₁ :=
  reset_collection_idempotent [("NEC", ["d1", "d2"]), ("GENERAL", ["g1"])] "NEC"
    (by rfl)

/-- **C6.** Each append adds exactly the user turn then the assistant turn;
whenever the resulting length exceeds 10, only the most recent 10 turns are
retained (oldest dropped first); the generation prompt surfaces only the last
5 turns of the provided history, oldest of the window first (the window is a
suffix of the history); and appending 7 (user, assistant) pairs leaves exactly
the most recent 10 turns. -/
theorem memory_window_spec (conversation : List TurnMsg) (q r : String)
    (h : List TurnMsg) :
    (conversation.length + 2 ≤ 10 →
      update_conversation conversation q r =
        conversation ++ [⟨"user", q⟩, ⟨"assistant", r⟩]) ∧
    (10 < conversation.length + 2 →
      update_conversation conversation q r =
        (conversation ++ [(⟨"user", q⟩ : TurnMsg), ⟨"assistant", r⟩]).drop
          (conversation.length + 2 - 10) ∧
      (update_conversation conversation q r).length = 10) ∧
    surfaced_history (some h) = h.drop (h.length - 5) ∧
    (surfaced_history (some h)).length = min 5 h.length ∧
    surfaced_history (some h) <:+ h ∧
    ([("q1", "a1"), ("q2", "a2"), ("q3", "a3"), ("q4", "a4"), ("q5", "a5"),
        ("q6", "a6"), ("q7", "a7")].foldl
        (fun c p => update_conversation c p.1 p.2) []) =
      [⟨"user", "q3"⟩, ⟨"assistant", "a3"⟩, ⟨"user", "q4"⟩, ⟨"assistant", "a4"⟩,
       ⟨"user", "q5"⟩, ⟨"assistant", "a5"⟩, ⟨"user", "q6"⟩, ⟨"assistant", "a6"⟩,
       ⟨"user", "q7"⟩, ⟨"assistant", "a7"⟩] := by
  have hap : (conversation ++ [(⟨"user", q⟩ : TurnMsg), ⟨"assistant", r⟩]).length =
      conversation.length + 2 := by simp
  refine ⟨?_, ?_, rfl, ?_, List.drop_suffix _ _, ?_⟩
  · intro hle
    unfold update_conversation
    rw [if_neg (by omega)]
  · intro hgt
    unfold update_conversation
    rw [if_pos (by omega :
      10 < (conversation ++ [(⟨"user", q⟩ : TurnMsg), ⟨"assistant", r⟩]).length), hap]
    constructor
    · rfl
    · rw [List.length_drop, hap]
      omega
  · show (h.drop (h.length - 5)).length = min 5 h.length
    rw [List.length_drop]
    omega
  · rfl

/-- Witness for C6: an append to a short history adds the two turns verbatim;
an append to a full (10-turn) history drops the two oldest turns. -/
theorem memory_window_spec_witness :
    update_conversation [] "q" "r" = [⟨"user", "q"⟩, ⟨"assistant", "r"⟩] ∧
    update_conversation
        [⟨"user", "q1"⟩, ⟨"assistant", "a1"⟩, ⟨"user", "q2"⟩, ⟨"assistant", "a2"⟩,
         ⟨"user", "q3"⟩, ⟨"assistant", "a3"⟩, ⟨"user", "q4"⟩, ⟨"assistant", "a4"⟩,
         ⟨"user", "q5"⟩, ⟨"assistant", "a5"⟩] "q6" "a6" =
      (([⟨"user", "q1"⟩, ⟨"assistant", "a1"⟩, ⟨"user", "q2"⟩, ⟨"assistant", "a2"⟩,
         ⟨"user", "q3"⟩, ⟨"assistant", "a3"⟩, ⟨"user", "q4"⟩, ⟨"assistant", "a4"⟩,
         ⟨"user", "q5"⟩, ⟨"assistant", "a5"⟩] : List TurnMsg) ++
       ([⟨"user", "q6"⟩, ⟨"assistant", "a6"⟩] : List TurnMsg)).drop 2 := by
  constructor
  · exact (memory_window_spec [] "q" "r" []).1 (by decide)
  · exact ((memory_window_spec
      [⟨"user", "q1"⟩, ⟨"assistant", "a1"⟩, ⟨"user", "q2"⟩, ⟨"assistant", "a2"⟩,
       ⟨"user", "q3"⟩, ⟨"assistant", "a3"⟩, ⟨"user", "q4"⟩, ⟨"assistant", "a4"⟩,
       ⟨"user", "q5"⟩, ⟨"assistant", "a5"⟩] "q6" "a6" []).2.1 (by decide)).1

/-- **C10.** After any sequence of append operations starting from the empty
conversation memory, every stored session history has even length, has length
at most 10, strictly alternates user/assistant turns, and (when nonempty)
begins with a user turn and ends with an assistant turn. -/
theorem conversation_memory_invariant (events : List (String × String × String))
    (session_id : String) (conversation : List TurnMsg)
    (h : List.lookup session_id (run_appends events) = some conversation) :
    Even conversation.length ∧ conversation.length ≤ 10 ∧
    well_formed_conversation conversation = true ∧
    (conversation ≠ [] →
      conversation.head?.map TurnMsg.role = some "user" ∧
      conversation.getLast?.map TurnMsg.role = some "assistant") := by
  obtain ⟨hwf, hlen⟩ := memory_invariant_run_appends events session_id conversation h
  exact ⟨well_formed_even hwf, hlen, hwf, fun hne => well_formed_head_last hwf hne⟩

/-- Witness for C10 after a single append event. -/
theorem conversation_memory_invariant_witness :
    Even ([⟨"user", "hi"⟩, ⟨"assistant", "hello"⟩] : List TurnMsg).length ∧
    ([⟨"user", "hi"⟩, ⟨"assistant", "hello"⟩] : List TurnMsg).length ≤ 10 ∧
    well_formed_conversation [⟨"user", "hi"⟩, ⟨"assistant", "hello"⟩] = true ∧
    (([⟨"user", "hi"⟩, ⟨"assistant", "hello"⟩] : List TurnMsg) ≠ [] →
      ([⟨"user", "hi"⟩, ⟨"assistant", "hello"⟩] : List TurnMsg).head?.map TurnMsg.role =
          some "user" ∧
      ([⟨"user", "hi"⟩, ⟨"assistant", "hello"⟩] : List TurnMsg).getLast?.map TurnMsg.role =
          some "assistant") :=
  conversation_memory_invariant [("s1", "hi", "hello")] "s1"
    [⟨"user", "hi"⟩, ⟨"assistant", "hello"⟩] (by rfl)

/-- **C1 (counterexample to the claim as stated).** With no caller filter and a
classification of "GENERAL", the pipeline searches only the GENERAL collection:
with three collections each holding one hit, the query uses 1 context document
(searching every collection would have used 3), while reporting intent
"GENERAL". -/
theorem general_intent_counterexample :
    ((rag_query
        ⟨fun _ => "GENERAL", fun _ => Except.ok [], fun _ _ _ => Except.ok "ans", "sid-1"⟩
        [("NEC", Except.ok [⟨"nd", [], 0⟩]),
         ("WATTMONK", Except.ok [⟨"wd", [], 0⟩]),
         ("GENERAL", Except.ok [⟨"gd", [], 0⟩])]
        [] "hello" none none none).1).map
      (fun res =>
        (res.context_used, res.sources.map SourceSummary.source,
         res.intent_classification)) =
    Except.ok (1, ["GENERAL"], "GENERAL") := rfl

/-- **C1 (amended).** With no caller-supplied filter, a classification outcome
of "GENERAL" (which is also what unrecognized and failed classifications
degrade to inside `classify_intent`) is itself a key of `DOCUMENT_SOURCES`, so
the Orchestrator applies it as the source filter and the subsequent search runs
over only the GENERAL collection, not over every configured collection. -/
theorem general_intent_scopes_to_general_collection (ops : GeminiOps)
    (collections : Collections) (query : String) (outcome : CollectionOutcome)
    (top_k? : Option ℕ)
    (hcls : ops.classify_intent query = "GENERAL")
    (hlk : List.lookup "GENERAL" collections = some outcome) :
    resolve_source_filter ops query none = some "GENERAL" ∧
    collections_to_search collections (some "GENERAL") = [("GENERAL", outcome)] ∧
    search_similar collections (resolve_source_filter ops query none) top_k? =
      (sort_by_score_desc (collect_results [("GENERAL", outcome)])).take
        (top_k?.getD TOP_K_RESULTS) := by
  have h1 : resolve_source_filter ops query none = some "GENERAL" := by
    unfold resolve_source_filter classified_filter
    rw [hcls]
    rfl
  have h2 : collections_to_search collections (some "GENERAL") =
      [("GENERAL", outcome)] := by
    simp only [collections_to_search]
    rw [if_neg (by decide : ¬("GENERAL" : String) = ""), hlk]
  refine ⟨h1, h2, ?_⟩
  rw [h1]
  unfold search_similar
  rw [h2]

/-- Witness for C1 at a concrete classifier and collection map. -/
theorem general_intent_scopes_witness :
    resolve_source_filter
        ⟨fun _ => "GENERAL", fun _ => Except.ok [], fun _ _ _ => Except.ok "ans", "sid-1"⟩
        "hello" none = some "GENERAL" ∧
    collections_to_search
        [("NEC", Except.ok []), ("GENERAL", Except.ok [])] (some "GENERAL") =
      [("GENERAL", Except.ok ([] : List RawHit))] ∧
    search_similar [("NEC", Except.ok []), ("GENERAL", Except.ok [])]
        (resolve_source_filter
          ⟨fun _ => "GENERAL", fun _ => Except.ok [], fun _ _ _ => Except.ok "ans", "sid-1"⟩
          "hello" none) none =
      (sort_by_score_desc
        (collect_results [("GENERAL", Except.ok ([] : List RawHit))])).take
        ((none : Option ℕ).getD TOP_K_RESULTS) :=
  general_intent_scopes_to_general_collection
    ⟨fun _ => "GENERAL", fun _ => Except.ok [], fun _ _ _ => Except.ok "ans", "sid-1"⟩
    [("NEC", Except.ok []), ("GENERAL", Except.ok [])] "hello"
    (Except.ok ([] : List RawHit)) none rfl rfl

/-- **C7.** If the pipeline fails (any stage up to and including generation
raises), the conversation memory is exactly what it was before the query: it is
mutated only after a successful generation. -/
theorem memory_unchanged_on_failure (ops : GeminiOps) (collections : Collections)
    (memory : Memory) (query : String) (session_id? source_filter? : Option String)
    (top_k? : Option ℕ) (e : String)
    (h : (rag_query ops collections memory query session_id? source_filter? top_k?).1 =
      Except.error e) :
    (rag_query ops collections memory query session_id? source_filter? top_k?).2 =
      memory := by
  simp only [rag_query] at h ⊢
  revert h
  cases ops.generate_query_embedding query with
  | error e' =>
    intro h
    rfl
  | ok emb =>
    cases ops.generate_response query
        (prepare_context (search_similar collections
          (resolve_source_filter ops query source_filter?)
          (some (resolve_top_k top_k?))))
        (get_conversation_history memory (resolve_session_id ops session_id?)) with
    | error e' =>
      intro h
      rfl
    | ok response =>
      intro h
      simp at h

/-- Witness for C7: a failing generation call leaves a concrete one-session
memory untouched. -/
theorem memory_unchanged_on_failure_witness :
    (rag_query
        ⟨fun _ => "GENERAL", fun _ => Except.ok [], fun _ _ _ => Except.error "boom", "sid-1"⟩
        [("GENERAL", Except.ok [])] [("s1", [⟨"user", "x"⟩, ⟨"assistant", "y"⟩])]
        "hello" (some "s1") none none).2 =
      [("s1", [⟨"user", "x"⟩, ⟨"assistant", "y"⟩])] :=
  memory_unchanged_on_failure
    ⟨fun _ => "GENERAL", fun _ => Except.ok [], fun _ _ _ => Except.error "boom", "sid-1"⟩
    [("GENERAL", Except.ok [])] [("s1", [⟨"user", "x"⟩, ⟨"assistant", "y"⟩])]
    "hello" (some "s1") none none "boom" rfl

/-- **C8.** For every successful query the returned `context_used` count equals
the length of the returned `sources` list; and when the search yields zero
results the query still succeeds with `context_used = 0`, confidence `0`, and
the empty string passed as context to the generation call. -/
theorem context_used_matches_sources (ops : GeminiOps) (collections : Collections)
    (memory : Memory) (query : String) (session_id? source_filter? : Option String)
    (top_k? : Option ℕ) (res : QueryResult)
    (h : (rag_query ops collections memory query session_id? source_filter? top_k?).1 =
      Except.ok res) :
    res.context_used = res.sources.length ∧
    (search_similar collections (resolve_source_filter ops query source_filter?)
        (some (resolve_top_k top_k?)) = [] →
      res.context_used = 0 ∧ res.confidence_score = 0 ∧
      ops.generate_response query ""
          (get_conversation_history memory (resolve_session_id ops session_id?)) =
        Except.ok res.answer) := by
  simp only [rag_query] at h
  revert h
  cases hemb : ops.generate_query_embedding query with
  | error e' =>
    intro h
    simp at h
  | ok emb =>
    cases hgen : ops.generate_response query
        (prepare_context (search_similar collections
          (resolve_source_filter ops query source_filter?)
          (some (resolve_top_k top_k?))))
        (get_conversation_history memory (resolve_session_id ops session_id?)) with
    | error e' =>
      intro h
      simp at h
    | ok response =>
      intro h
      simp only [Except.ok.injEq] at h
      subst h
      constructor
      · simp [format_sources]
      · intro hdocs
        rw [hdocs] at hgen
        refine ⟨by rw [hdocs]; rfl, by rw [hdocs]; rfl, ?_⟩
        simpa [prepare_context] using hgen

/-- Witness for C8: an empty store yields a successful query with zero context,
zero confidence, and the empty context string handed to generation. -/
theorem context_used_matches_sources_witness :
    ({ answer := "ans", sources := [], context_used := 0,
       intent_classification := "GENERAL", confidence_score := 0,
       session_id := "s1" } : QueryResult).context_used =
      ({ answer := "ans", sources := [], context_used := 0,
         intent_classification := "GENERAL", confidence_score := 0,
         session_id := "s1" } : QueryResult).sources.length ∧
    (search_similar []
        (resolve_source_filter
          ⟨fun _ => "OTHER", fun _ => Except.ok [], fun _ _ _ => Except.ok "ans", "s1"⟩
          "q" none)
        (some (resolve_top_k none)) = [] →
      ({ answer := "ans", sources := [], context_used := 0,
         intent_classification := "GENERAL", confidence_score := 0,
         session_id := "s1" } : QueryResult).context_used = 0 ∧
      ({ answer := "ans", sources := [], context_used := 0,
         intent_classification := "GENERAL", confidence_score := 0,
         session_id := "s1" } : QueryResult).confidence_score = 0 ∧
      (⟨fun _ => "OTHER", fun _ => Except.ok [], fun _ _ _ => Except.ok "ans", "s1"⟩ :
          GeminiOps).generate_response "q" ""
          (get_conversation_history []
            (resolve_session_id
              ⟨fun _ => "OTHER", fun _ => Except.ok [], fun _ _ _ => Except.ok "ans", "s1"⟩
              none)) =
        Except.ok ({ answer := "ans", sources := [], context_used := 0,
                     intent_classification := "GENERAL", confidence_score := 0,
                     session_id := "s1" } : QueryResult).answer) :=
  context_used_matches_sources
    ⟨fun _ => "OTHER", fun _ => Except.ok [], fun _ _ _ => Except.ok "ans", "s1"⟩
    [] [] "q" none none none
    { answer := "ans", sources := [], context_used := 0,
      intent_classification := "GENERAL", confidence_score := 0,
      session_id := "s1" } rfl

end Rag
